import Mathlib

/-
Verification development for the extraction subsystem of lutris
(src/lutris/util/extract.py).

The filesystem is modelled as an association list from paths (lists of
components) to nodes; path-manipulating operations of the Python code
(os.remove, os.rename, shutil.move, os.removedirs, ...) are embedded as
pure functions on that model.  External processes (7z, innoextract) are
modelled by their observable interface: the exit code they return and the
filesystem contents they produce, both supplied as parameters.
-/

set_option autoImplicit false

namespace LutrisExtract

/-- A file path, as its list of components (the parts between slashes). -/
abbrev Path := List String

/-- A filesystem node: a regular file with abstract content, or a directory. -/
inductive FNode where
  | file (content : Nat)
  | dir
  deriving DecidableEq, Repr

/-- A filesystem: a finite association of paths to nodes.
The first binding of a path is the authoritative one. -/
abbrev FS := List (Path × FNode)

/-- The node found at a path (first binding wins). -/
def lookup (fs : FS) (p : Path) : Option FNode :=
  match fs with
  | [] => none
  | e :: rest => if e.1 = p then some e.2 else lookup rest p

/-- os.path.exists -/
def path_exists (fs : FS) (p : Path) : Bool :=
  (lookup fs p).isSome

/-- os.path.isfile -/
def isfile (fs : FS) (p : Path) : Bool :=
  match lookup fs p with
  | some (.file _) => true
  | _ => false

/-- os.path.isdir -/
def isdir (fs : FS) (p : Path) : Bool :=
  match lookup fs p with
  | some .dir => true
  | _ => false

/-- os.remove: drop the binding at exactly this path. -/
def removePath (fs : FS) (p : Path) : FS :=
  fs.filter (fun e => decide (e.1 ≠ p))

/-- Create or overwrite a single node at a path. -/
def writeNode (fs : FS) (p : Path) (n : FNode) : FS :=
  (p, n) :: removePath fs p

/-- Boolean initial-segment test: `isPref p q` holds when `p` is an initial
segment of `q` (for paths: the entry at `q` lives at or below `p`). -/
def isPref {α : Type} [BEq α] : List α → List α → Bool
  | [], _ => true
  | _ :: _, [] => false
  | a :: p, b :: q => a == b && isPref p q

/-- Key transformation of a rename: paths at or below `src` are re-rooted at
`dst`; all other paths are untouched. -/
def movePath (src dst q : Path) : Path :=
  if isPref src q then dst ++ q.drop src.length else q

/-- os.rename / shutil.move of a whole subtree from `src` to `dst`. -/
def renameTree (fs : FS) (src dst : Path) : FS :=
  fs.map (fun e => (movePath src dst e.1, e.2))

/-- A directory is empty when no entry lies strictly below it. -/
def dirIsEmpty (fs : FS) (p : Path) : Bool :=
  fs.all (fun e => !(isPref p e.1 && decide (p ≠ e.1)))

/-- os.removedirs: remove the leaf directory when it is empty, then try to
remove each ancestor in turn, stopping at the first non-empty one.
The chain leaf, parent, grandparent, ... is walked structurally over the
reversed component list (the current directory is `rp.reverse`, its parent
`rest.reverse`).  (The OSError that os.removedirs raises when the leaf is
non-empty is elided: the extraction code only reaches it with an emptied
staging wrapper.) -/
def removedirsAux (fs : FS) : List String → FS
  | [] => fs
  | c :: rest =>
    if isdir fs ((c :: rest).reverse) && dirIsEmpty fs ((c :: rest).reverse) then
      removedirsAux (removePath fs ((c :: rest).reverse)) rest
    else fs

def removedirs (fs : FS) (p : Path) : FS :=
  removedirsAux fs p.reverse

/-- Modelled from the spec (§4.3, system.delete_folder is not in src/):
delete the staging directory tree entirely. -/
def delete_folder (fs : FS) (p : Path) : FS :=
  fs.filter (fun e => !(isPref p e.1))

/-- os.listdir: the names of the entries directly inside `p`. -/
def childNames (fs : FS) (p : Path) : List String :=
  fs.filterMap (fun e =>
    if e.1.length == p.length + 1 && isPref p e.1 then e.1.getLast? else none)

/-! ## String helpers (Python semantics) -/

/-- Python str.endswith: the reversed candidate suffix is an initial segment
of the reversed string. -/
def py_endswith (s sfx : String) : Bool :=
  isPref sfx.data.reverse s.data.reverse

/-- Python str.lstrip("."): drop leading dots. -/
def lstripDots (s : String) : String :=
  String.mk (s.data.dropWhile (fun ch => ch == '.'))

/-- Python truthiness of an optional string: None and "" are falsy. -/
def pyTruthy : Option String → Bool
  | none => false
  | some s => s != ""

/-- Index of the last occurrence of a character, scanning with a running
index (str.rfind, with None for -1). -/
def rfindIdxAux (c : Char) : List Char → Nat → Option Nat
  | [], _ => none
  | a :: rest, i =>
    match rfindIdxAux c rest (i + 1) with
    | some j => some j
    | none => if a == c then some i else none

def rfindIdx (c : Char) (l : List Char) : Option Nat :=
  rfindIdxAux c l 0

/-- os.path.splitext (posixpath): split off the extension at the last dot,
provided that dot lies inside the basename and the basename has a non-dot
character before it (so ".bashrc" has no extension). -/
def splitext (p : String) : String × String :=
  let cs := p.data
  let dotIndex := rfindIdx '.' cs
  let sepIndex := rfindIdx '/' cs
  match dotIndex with
  | none => (p, "")
  | some d =>
    let start := match sepIndex with | none => 0 | some i => i + 1
    if start ≤ d then
      if ((cs.drop start).take (d - start)).any (fun ch => ch != '.') then
        (String.mk (cs.take d), String.mk (cs.drop d))
      else (p, "")
    else (p, "")

/-! ## extract.py: format detection -/

/-- extract.py lines 25-71: is_7zip_supported.  Returns `some b` where the
Python function returns a bool, and `none` where it falls through and
returns None (no extractor hint and no extension). -/
def supported_extractors : List String :=
  ["7z", "xz", "bzip2", "gzip", "tar", "zip", "ar", "arj", "cab", "chm",
   "cpio", "cramfs", "dmg", "ext", "fat", "gpt", "hfs", "ihex", "iso",
   "lzh", "lzma", "mbr", "msi", "nsis", "ntfs", "qcow2", "rar", "rpm",
   "squashfs", "udf", "uefi", "vdi", "vhd", "vmdk", "wim", "xar", "z",
   "auto"]

def is_7zip_supported (path : String) (extractor : Option String) : Option Bool :=
  if pyTruthy extractor then
    some (supported_extractors.contains ((extractor.getD "").toLower))
  else
    let ext := (splitext path).2
    if ext ≠ "" then
      some (supported_extractors.contains ((lstripDots ext).toLower))
    else none

/-- The spec's reading of the same predicate: an effective tag (hint first,
else the path's bare extension) is looked up in the supported table. -/
def effectiveTag (path : String) (extractor : Option String) : Option String :=
  if pyTruthy extractor then some ((extractor.getD "").toLower)
  else
    let ext := (splitext path).2
    if ext ≠ "" then some ((lstripDots ext).toLower) else none

def isSupportedFormatSpec (path : String) (extractor : Option String) : Option Bool :=
  (effectiveTag path extractor).map (fun t => supported_extractors.contains t)

/-- extract.py lines 74-96: guess_extractor. -/
def guess_extractor (path : String) : Option String :=
  if py_endswith path ".tar" then some "tar"
  else if py_endswith path ".tar.gz" || py_endswith path ".tgz" then some "tgz"
  else if py_endswith path ".tar.xz" || py_endswith path ".txz"
      || py_endswith path ".tar.lzma" then some "txz"
  else if py_endswith path ".tar.bz2" || py_endswith path ".tbz2"
      || py_endswith path ".tbz" then some "tbz2"
  else if py_endswith path ".tar.zst" || py_endswith path ".tzst" then some "tzst"
  else if py_endswith path ".gz" then some "gzip"
  else if py_endswith path ".exe" then some "exe"
  else if py_endswith path ".deb" then some "deb"
  else if py_endswith path ".AppImage" then some "AppImage"
  else none

/-- The suffix table as the spec documents it (§4.1, §8), one suffix per
branch, most specific first. -/
def guessExtractorKindSpec (path : String) : Option String :=
  if py_endswith path ".tar" then some "tar"
  else if py_endswith path ".tar.gz" then some "tgz"
  else if py_endswith path ".tgz" then some "tgz"
  else if py_endswith path ".tar.xz" then some "txz"
  else if py_endswith path ".txz" then some "txz"
  else if py_endswith path ".tar.lzma" then some "txz"
  else if py_endswith path ".tar.bz2" then some "tbz2"
  else if py_endswith path ".tbz2" then some "tbz2"
  else if py_endswith path ".tbz" then some "tbz2"
  else if py_endswith path ".tar.zst" then some "tzst"
  else if py_endswith path ".tzst" then some "tzst"
  else if py_endswith path ".gz" then some "gzip"
  else if py_endswith path ".exe" then some "exe"
  else if py_endswith path ".deb" then some "deb"
  else if py_endswith path ".AppImage" then some "AppImage"
  else none

/-! ## extract.py: random staging ids (lines 20-22, 136) -/

/-- One lowercase hexadecimal digit. -/
def hexChar (n : Nat) : Char :=
  match n % 16 with
  | 0 => '0' | 1 => '1' | 2 => '2' | 3 => '3' | 4 => '4'
  | 5 => '5' | 6 => '6' | 7 => '7' | 8 => '8' | 9 => '9'
  | 10 => 'a' | 11 => 'b' | 12 => 'c' | 13 => 'd' | 14 => 'e'
  | _ => 'f'

/-- The sixteen lowercase hexadecimal digits. -/
def hexDigitChars : List Char :=
  "0123456789abcdef".data

/-- Big-endian fixed-width lowercase hex rendering. -/
def hexChars (len r : Nat) : List Char :=
  (List.range len).map (fun i => hexChar (r / 16 ^ (len - 1 - i)))

/-- The character sequence of str(uuid.uuid4()) for random draw `r`
(a 128-bit value): 32 lowercase hex digits in 8-4-4-4-12 blocks separated
by dashes.  (uuid4 also pins the version/variant nibbles of `r`; those sit
beyond the first 8 characters and do not matter here.) -/
def uuid4_chars (r : Nat) : List Char :=
  hexChars 8 (r / 2 ^ 96) ++ '-' ::
    (hexChars 4 ((r / 2 ^ 80) % 2 ^ 16) ++ '-' ::
      (hexChars 4 ((r / 2 ^ 64) % 2 ^ 16) ++ '-' ::
        (hexChars 4 ((r / 2 ^ 48) % 2 ^ 16) ++ '-' ::
          hexChars 12 (r % 2 ^ 48))))

/-- extract.py lines 20-22: random_id = str(uuid.uuid4())[:8]. -/
def random_id (r : Nat) : String :=
  String.mk ((uuid4_chars r).take 8)

/-- extract.py line 136: the staging directory path,
os.path.join(to_directory, ".extract-%s" % random_id()). -/
def staging_dir (toDir : Path) (r : Nat) : Path :=
  toDir ++ [".extract-" ++ random_id r]

/-! ## Exceptions and external tools -/

/-- The Python exceptions relevant to extract_archive's except clause. -/
inductive PyExc where
  | osError (msg : String)
  | zlibError (msg : String)
  | tarReadError (msg : String)
  | eofError (msg : String)
  | other (msg : String)
  deriving DecidableEq, Repr

/-- str(ex). -/
def pyStr : PyExc → String
  | .osError m => m
  | .zlibError m => m
  | .tarReadError m => m
  | .eofError m => m
  | .other m => m

/-- Membership in the tuple (OSError, zlib.error, tarfile.ReadError, EOFError)
of extract.py line 139. -/
def isCaught : PyExc → Bool
  | .other _ => false
  | _ => true

/-- Errors escaping the modelled operations. -/
inductive TopErr where
  | extractError (msg : String)
  | runtimeError (msg : String)
  | missingExecutable
  | uncaught (e : PyExc)
  deriving DecidableEq, Repr

/-- Observable state of the external tooling: where innoextract can be
found, and the exit codes the external processes would return. -/
structure ToolEnv where
  runtimeInno : Option String
  pathInno : Option String
  innoTestRc : Int
  innoExtractRc : Int
  sevenZaTestRc : Int
  deriving DecidableEq, Repr

/-- Modelled from the spec (§4.4, system.find_executable is not in src/):
a system PATH lookup that raises a missing-executable condition when the
tool is nowhere to be found. -/
def find_executable (env : ToolEnv) : Except TopErr String :=
  match env.pathInno with
  | some p => Except.ok p
  | none => Except.error TopErr.missingExecutable

/-- extract.py lines 256-266: get_innoextract_path, checking the bundled
runtime directory first and falling back to the system PATH. -/
def get_innoextract_path (env : ToolEnv) : Except TopErr String :=
  match env.runtimeInno with
  | some p => Except.ok p
  | none => find_executable env

/-- extract.py lines 269-279: check_inno_exe.  A MissingExecutableError from
the locator is caught and logged, yielding False; otherwise the probe runs
`innoextract -i` and reports exit code zero. -/
def check_inno_exe (env : ToolEnv) : Bool :=
  match get_innoextract_path env with
  | Except.error _ => false
  | Except.ok _ => env.innoTestRc == 0

/-- extract.py lines 288-293: decompress_gog.  The locator failure is NOT
caught here; a non-zero innoextract exit raises RuntimeError. -/
def decompress_gog (env : ToolEnv) : Except TopErr Unit :=
  match get_innoextract_path env with
  | Except.error e => Except.error e
  | Except.ok _ =>
    if env.innoExtractRc != 0 then
      Except.error (TopErr.runtimeError "innoextract failed to extract GOG setup file")
    else Except.ok ()

/-- extract.py lines 310-317: extract_7zip.  The subprocess.call return code
`rc` of the external 7z tool is discarded; the function returns success
unconditionally. -/
def extract_7zip (_rc : Int) : Except TopErr Unit :=
  Except.ok ()

/-- extract.py lines 204-217: extract_exe.  Inno probe first; otherwise test
the file with `7za t` and either extract with 7zip or raise RuntimeError. -/
def extract_exe (env : ToolEnv) : Except TopErr Unit :=
  if check_inno_exe env then
    decompress_gog env
  else if env.sevenZaTestRc == 0 then
    extract_7zip env.sevenZaTestRc
  else
    Except.error (TopErr.runtimeError "specified exe is not an archive or GOG setup file")

/-! ## extract.py: extract_archive (lines 127-182) -/

/-- One iteration of the merge loop, extract.py lines 158-179.  `mergeFn`
stands for system.merge_folders (not in src/; modelled from the spec §4.3 as
an abstract recursive merge that may fail with an OSError message, which
extract_archive wraps into an ExtractError). -/
def processEntry (mergeFn : FS → Path → Path → Except String FS)
    (fs : FS) (tempPath toDir : Path) (name : String) : Except TopErr FS :=
  let source := tempPath ++ [name]
  let dest := toDir ++ [name]
  if path_exists fs dest then
    if isfile fs dest then
      Except.ok (renameTree (removePath fs dest) source dest)
    else if isdir fs dest then
      match mergeFn fs source dest with
      | Except.ok fs' => Except.ok fs'
      | Except.error m => Except.error (TopErr.extractError m)
    else Except.ok fs
  else Except.ok (renameTree fs source dest)

/-- The merge loop over the listed entries. -/
def processEntries (mergeFn : FS → Path → Path → Except String FS)
    (fs : FS) (tempPath toDir : Path) : List String → Except TopErr FS
  | [] => Except.ok fs
  | n :: rest =>
    match processEntry mergeFn fs tempPath toDir n with
    | Except.ok fs' => processEntries mergeFn fs' tempPath toDir rest
    | Except.error e => Except.error e

/-- extract.py lines 147-156: the single-staged-file branch.  The staged
file is tempDir/ename; a file at the destination is removed, a directory
there is renamed by appending a fresh random id `rid2`, then the staged file
is moved into the destination directory and the emptied staging wrapper is
removed with os.removedirs. -/
def mergeSingleFile (fs : FS) (toDir tempDir : Path) (ename rid2 : String) : FS :=
  let tempPath := tempDir ++ [ename]
  let destination := toDir ++ [ename]
  let fs1 := if isfile fs destination then removePath fs destination else fs
  let fs2 :=
    if isdir fs1 destination then
      renameTree fs1 destination (toDir ++ [ename ++ rid2])
    else fs1
  let fs3 := renameTree fs2 tempPath destination
  removedirs fs3 tempDir

/-- extract.py lines 142-145: when merge_single is set and the staging
directory holds exactly one entry, that entry becomes the effective staged
root. -/
def flattenedPath (fs1 : FS) (tempDir : Path) (mergeSingle : Bool) : Path :=
  if mergeSingle && (childNames fs1 tempDir).length == 1 then
    tempDir ++ [(childNames fs1 tempDir).headD ""]
  else tempDir

/-- extract.py lines 127-182: extract_archive.  `doExtract` is the backend
step (_do_extract) populating the staging directory: its exceptions of the
four caught kinds are wrapped into ExtractError.  `rid` is the random id
drawn at line 136 and `rid2` the one a directory collision would draw at
line 153. -/
def extract_archive_model (doExtract : FS → Path → Except PyExc FS)
    (mergeFn : FS → Path → Path → Except String FS)
    (fs0 : FS) (toDir : Path) (mergeSingle : Bool) (rid rid2 : String) :
    Except TopErr (FS × Path) :=
  let tempDir := toDir ++ [".extract-" ++ rid]
  match doExtract fs0 tempDir with
  | Except.error ex =>
    if isCaught ex then Except.error (TopErr.extractError (pyStr ex))
    else Except.error (TopErr.uncaught ex)
  | Except.ok fs1 =>
    let tempPath := flattenedPath fs1 tempDir mergeSingle
    if isfile fs1 tempPath then
      Except.ok (mergeSingleFile fs1 toDir tempDir
        ((childNames fs1 tempDir).headD "") rid2, toDir)
    else
      match processEntries mergeFn fs1 tempPath toDir (childNames fs1 tempPath) with
      | Except.ok fs2 => Except.ok (delete_folder fs2 tempDir, toDir)
      | Except.error e => Except.error e

/-! ## extract.py: extract_deb (lines 220-239) -/

def controlFileExts : List String := [".gz", ".xz", ".zst", ""]

def dataFileExts : List String := [".gz", ".xz", ".zst", ".bz2", ".lzma", ""]

/-- The probe loop of extract_deb: the first `base.tar<ext>` that exists in
`dest`, taking the extensions in the given order. -/
def find_tar_variant (fs : FS) (dest : Path) (base : String) :
    List String → Option Path
  | [] => none
  | ext :: rest =>
    let p := dest ++ [base ++ ".tar" ++ ext]
    if path_exists fs p then some p else find_tar_variant fs dest base rest

/-- extract.py lines 220-239: extract_deb.  `arExtract` is the effect of
extract_7zip with archive_type "ar" on the filesystem (the AR members land
in dest); `innerExtract` is the recursive extract_archive call on the data
tarball.  The control tarball is moved, still compressed, into dest/debian;
the data tarball is extracted in place and then deleted. -/
def extract_deb_model (arExtract : FS → Path → FS)
    (innerExtract : FS → Path → Path → FS) (fs0 : FS) (dest : Path) :
    Except TopErr FS :=
  let fs1 := arExtract fs0 dest
  let debianFolder := dest ++ ["debian"]
  if path_exists fs1 debianFolder then
    Except.error (TopErr.uncaught (PyExc.osError "FileExistsError"))
  else
    let fs2 := writeNode fs1 debianFolder FNode.dir
    let fs3 :=
      match find_tar_variant fs2 dest "control" controlFileExts with
      | some p => renameTree fs2 p (debianFolder ++ [p.getLastD ""])
      | none => fs2
    let fs4 :=
      match find_tar_variant fs3 dest "data" dataFileExts with
      | some p => removePath (innerExtract fs3 p dest) p
      | none => fs3
    Except.ok fs4

/-- The filesystem extract_deb produces in the scenario of claim C6 (outer
AR container holding control.tar.gz and data.tar.xz): the AR members land
in dest, debian/ is created, control.tar.gz is renamed into it, the data
tarball is dispatched to the recursive extractor and then deleted. -/
def extract_deb_result (arExtract : FS → Path → FS)
    (innerExtract : FS → Path → Path → FS) (fs0 : FS) (dest : Path) : FS :=
  removePath
    (innerExtract
      (renameTree (writeNode (arExtract fs0 dest) (dest ++ ["debian"]) FNode.dir)
        (dest ++ ["control.tar.gz"]) ((dest ++ ["debian"]) ++ ["control.tar.gz"]))
      (dest ++ ["data.tar.xz"]) dest)
    (dest ++ ["data.tar.xz"])

/-! ## Basic lemmas about the filesystem model -/

theorem isPref_self_append {α : Type} [BEq α] [LawfulBEq α] (p t : List α) :
    isPref p (p ++ t) = true := by
  induction p with
  | nil => simp [isPref]
  | cons a p ih => simp [isPref, ih]

theorem isPref_refl {α : Type} [BEq α] [LawfulBEq α] (p : List α) :
    isPref p p = true := by
  have := isPref_self_append p []
  simpa using this

theorem eq_append_drop_of_isPref {α : Type} [BEq α] [LawfulBEq α]
    {p q : List α} (h : isPref p q = true) : q = p ++ q.drop p.length := by
  induction p generalizing q with
  | nil => simp
  | cons a p ih =>
    cases q with
    | nil => simp [isPref] at h
    | cons b q =>
      simp only [isPref, Bool.and_eq_true, beq_iff_eq] at h
      obtain ⟨rfl, h⟩ := h
      simpa using ih h

theorem isPref_iff {α : Type} [BEq α] [LawfulBEq α] (p q : List α) :
    isPref p q = true ↔ ∃ t, q = p ++ t := by
  constructor
  · intro h
    exact ⟨q.drop p.length, eq_append_drop_of_isPref h⟩
  · rintro ⟨t, rfl⟩
    exact isPref_self_append p t

theorem isPref_length_le {α : Type} [BEq α] [LawfulBEq α]
    {p q : List α} (h : isPref p q = true) : p.length ≤ q.length := by
  obtain ⟨t, rfl⟩ := (isPref_iff p q).mp h
  simp

theorem isPref_append_left {α : Type} [BEq α] [LawfulBEq α] (p r s : List α) :
    isPref (p ++ r) (p ++ s) = isPref r s := by
  induction p with
  | nil => rfl
  | cons a p ih => simp [isPref, ih]

theorem isPref_append_single {α : Type} [BEq α] [LawfulBEq α]
    (p : List α) (a b : α) (t : List α) :
    isPref (p ++ [a]) (p ++ b :: t) = (a == b) := by
  have := isPref_append_left p [a] (b :: t)
  simpa [isPref] using this

theorem isPref_trans {α : Type} [BEq α] [LawfulBEq α] {p q r : List α}
    (h1 : isPref p q = true) (h2 : isPref q r = true) : isPref p r = true := by
  obtain ⟨t1, rfl⟩ := (isPref_iff p q).mp h1
  obtain ⟨t2, rfl⟩ := (isPref_iff _ r).mp h2
  rw [List.append_assoc]
  exact isPref_self_append p _

theorem isPref_dropLast {α : Type} [BEq α] [LawfulBEq α] (p : List α) :
    isPref p.dropLast p = true := by
  induction p with
  | nil => simp [isPref]
  | cons a p ih =>
    cases p with
    | nil => simp [isPref, List.dropLast]
    | cons b q => simpa [List.dropLast, isPref] using ih

theorem isPref_false_of_lt {α : Type} [BEq α] [LawfulBEq α]
    {p q : List α} (h : q.length < p.length) : isPref p q = false := by
  cases hp : isPref p q with
  | false => rfl
  | true => exact absurd (isPref_length_le hp) (by omega)

theorem app_cancel {α : Type} {p q r : List α} (h : p ++ q = p ++ r) : q = r := by
  induction p with
  | nil => exact h
  | cons a p ih =>
    simp only [List.cons_append, List.cons.injEq] at h
    exact ih h.2

theorem isdir_iff (fs : FS) (p : Path) :
    isdir fs p = true ↔ lookup fs p = some FNode.dir := by
  unfold isdir
  split <;> simp_all

theorem isfile_iff (fs : FS) (p : Path) :
    isfile fs p = true ↔ ∃ c, lookup fs p = some (FNode.file c) := by
  unfold isfile
  split <;> simp_all

theorem path_exists_iff (fs : FS) (p : Path) :
    path_exists fs p = true ↔ ∃ n, lookup fs p = some n := by
  unfold path_exists
  simp [Option.isSome_iff_exists]

theorem lookup_filter_of (fs : FS) (f : Path × FNode → Bool) (q : Path)
    (h : ∀ n, f (q, n) = true) :
    lookup (fs.filter f) q = lookup fs q := by
  induction fs with
  | nil => rfl
  | cons e rest ih =>
    obtain ⟨p1, n1⟩ := e
    by_cases he : p1 = q
    · subst he
      simp [List.filter_cons, h n1, lookup]
    · cases hf : f (p1, n1) <;> simp [List.filter_cons, hf, lookup, he, ih]

theorem lookup_filter_none (fs : FS) (f : Path × FNode → Bool) (q : Path)
    (h : ∀ n, f (q, n) = false) :
    lookup (fs.filter f) q = none := by
  induction fs with
  | nil => rfl
  | cons e rest ih =>
    obtain ⟨p1, n1⟩ := e
    by_cases he : p1 = q
    · subst he
      simp [List.filter_cons, h n1, ih]
    · cases hf : f (p1, n1) <;> simp [List.filter_cons, hf, lookup, he, ih]

theorem lookup_removePath_self (fs : FS) (p : Path) :
    lookup (removePath fs p) p = none := by
  apply lookup_filter_none
  intro n
  simp

theorem lookup_removePath_ne (fs : FS) {p q : Path} (h : q ≠ p) :
    lookup (removePath fs p) q = lookup fs q := by
  apply lookup_filter_of
  intro n
  simp [h]

theorem lookup_writeNode_self (fs : FS) (p : Path) (n : FNode) :
    lookup (writeNode fs p n) p = some n := by
  simp [writeNode, lookup]

theorem lookup_writeNode_ne (fs : FS) {p q : Path} (n : FNode) (h : q ≠ p) :
    lookup (writeNode fs p n) q = lookup fs q := by
  have : p ≠ q := fun he => h he.symm
  simp only [writeNode, lookup, if_neg this]
  exact lookup_removePath_ne fs h

theorem lookup_delete_folder (fs : FS) {p q : Path} (h : isPref p q = false) :
    lookup (delete_folder fs p) q = lookup fs q := by
  apply lookup_filter_of
  intro n
  simp [h]

theorem lookup_mapKeys_eq (fs : FS) (f : Path → Path) (r s : Path)
    (h1 : f s = r) (h2 : ∀ k, f k = r → k ≠ s → lookup fs k = none) :
    lookup (fs.map (fun e => (f e.1, e.2))) r = lookup fs s := by
  induction fs with
  | nil => rfl
  | cons e rest ih =>
    obtain ⟨p1, n1⟩ := e
    by_cases hf : f p1 = r
    · by_cases hp : p1 = s
      · subst hp
        simp [lookup, List.map_cons, hf]
      · have := h2 p1 hf hp
        simp [lookup] at this
    · have hp : p1 ≠ s := fun he => hf (he ▸ h1)
      have h2' : ∀ k, f k = r → k ≠ s → lookup rest k = none := by
        intro k hk hks
        have hall := h2 k hk hks
        by_cases hpk : p1 = k
        · subst hpk; simp [lookup] at hall
        · simpa [lookup, hpk] using hall
      simp only [List.map_cons, lookup, if_neg hf, if_neg hp]
      exact ih h2'

theorem lookup_mapKeys_none (fs : FS) (f : Path → Path) (r : Path)
    (h : ∀ k, f k ≠ r) :
    lookup (fs.map (fun e => (f e.1, e.2))) r = none := by
  induction fs with
  | nil => rfl
  | cons e rest ih => simp [lookup, List.map_cons, h e.1, ih]

theorem movePath_of_isPref {src : Path} (dst : Path) {q : Path}
    (h : isPref src q = true) : movePath src dst q = dst ++ q.drop src.length := by
  simp [movePath, h]

theorem movePath_of_not {src : Path} (dst : Path) {q : Path}
    (h : isPref src q = false) : movePath src dst q = q := by
  simp [movePath, h]

theorem movePath_append (src dst t : Path) :
    movePath src dst (src ++ t) = dst ++ t := by
  simp [movePath, isPref_self_append, List.drop_left]

theorem lookup_renameTree_outside (fs : FS) (src dst r : Path)
    (hs : isPref src r = false) (hd : isPref dst r = false) :
    lookup (renameTree fs src dst) r = lookup fs r := by
  unfold renameTree
  apply lookup_mapKeys_eq fs (movePath src dst) r r (movePath_of_not dst hs)
  intro k hk hkr
  exfalso
  by_cases hp : isPref src k = true
  · rw [movePath_of_isPref dst hp] at hk
    rw [← hk] at hd
    rw [isPref_self_append] at hd
    exact Bool.true_eq_false.mp hd
  · rw [movePath_of_not dst (Bool.not_eq_true _ ▸ hp : isPref src k = false)] at hk
    exact hkr hk

theorem lookup_renameTree_to (fs : FS) (src dst t : Path)
    (hclean : lookup fs (dst ++ t) = none) :
    lookup (renameTree fs src dst) (dst ++ t) = lookup fs (src ++ t) := by
  unfold renameTree
  apply lookup_mapKeys_eq fs (movePath src dst) (dst ++ t) (src ++ t)
    (movePath_append src dst t)
  intro k hk hks
  by_cases hp : isPref src k = true
  · exfalso
    rw [movePath_of_isPref dst hp] at hk
    have hdrop : k.drop src.length = t := app_cancel hk
    have : k = src ++ t := by
      rw [← hdrop]
      exact eq_append_drop_of_isPref hp
    exact hks this
  · rw [movePath_of_not dst (Bool.not_eq_true _ ▸ hp : isPref src k = false)] at hk
    rw [hk]
    exact hclean

theorem lookup_renameTree_src (fs : FS) (src dst r : Path)
    (hpref : isPref src r = true) (hd : isPref dst r = false) :
    lookup (renameTree fs src dst) r = none := by
  unfold renameTree
  apply lookup_mapKeys_none
  intro k hk
  by_cases hp : isPref src k = true
  · rw [movePath_of_isPref dst hp] at hk
    rw [← hk] at hd
    rw [isPref_self_append] at hd
    exact Bool.true_eq_false.mp hd
  · rw [movePath_of_not dst (Bool.not_eq_true _ ▸ hp : isPref src k = false)] at hk
    rw [hk] at hp
    exact hp hpref

theorem isPref_append_of {α : Type} [BEq α] [LawfulBEq α] {p q : List α}
    (s : List α) (h : isPref p q = true) : isPref p (q ++ s) = true := by
  obtain ⟨t, rfl⟩ := (isPref_iff p q).mp h
  rw [List.append_assoc]
  exact isPref_self_append p _

theorem ne_of_isPref_false' {p q : List String} (h : isPref p q = false) : q ≠ p := by
  intro he
  rw [he, isPref_refl] at h
  exact Bool.true_eq_false.mp h

theorem lookup_removedirsAux_not_pref (fs : FS) (rp : List String) (q : Path)
    (h : isPref q rp.reverse = false) :
    lookup (removedirsAux fs rp) q = lookup fs q := by
  induction rp generalizing fs with
  | nil => rfl
  | cons c rest ih =>
    simp only [removedirsAux]
    split
    · have hrest : isPref q rest.reverse = false := by
        cases hc : isPref q rest.reverse with
        | false => rfl
        | true =>
          have hall : isPref q ((c :: rest).reverse) = true := by
            rw [List.reverse_cons]
            exact isPref_append_of [c] hc
          rw [h] at hall
          exact absurd hall (by simp)
      rw [ih _ hrest]
      exact lookup_removePath_ne fs (Ne.symm (ne_of_isPref_false' h))
    · rfl

theorem lookup_removedirsAux_nondir (fs : FS) (rp : List String) (q : Path)
    (h : lookup fs q ≠ some FNode.dir) :
    lookup (removedirsAux fs rp) q = lookup fs q := by
  induction rp generalizing fs with
  | nil => rfl
  | cons c rest ih =>
    simp only [removedirsAux]
    split
    next hcond =>
      rw [Bool.and_eq_true] at hcond
      have hdir : lookup fs ((c :: rest).reverse) = some FNode.dir :=
        (isdir_iff _ _).mp hcond.1
      have hq : q ≠ (c :: rest).reverse := fun he => h (he ▸ hdir)
      have hpres : lookup (removePath fs ((c :: rest).reverse)) q = lookup fs q :=
        lookup_removePath_ne fs hq
      rw [ih _ (by rw [hpres]; exact h), hpres]
    next _ => rfl

theorem lookup_removedirs_not_pref (fs : FS) (p : Path) (q : Path)
    (h : isPref q p = false) :
    lookup (removedirs fs p) q = lookup fs q := by
  unfold removedirs
  apply lookup_removedirsAux_not_pref
  rw [List.reverse_reverse]
  exact h

theorem lookup_removedirs_nondir (fs : FS) (p : Path) (q : Path)
    (h : lookup fs q ≠ some FNode.dir) :
    lookup (removedirs fs p) q = lookup fs q := by
  unfold removedirs
  exact lookup_removedirsAux_nondir fs p.reverse q h

theorem isPref_or_isPref {α : Type} [BEq α] [LawfulBEq α] {p q r : List α}
    (h1 : isPref p r = true) (h2 : isPref q r = true) :
    isPref p q = true ∨ isPref q p = true := by
  induction p generalizing q r with
  | nil => exact Or.inl rfl
  | cons a p ih =>
    cases q with
    | nil => exact Or.inr rfl
    | cons b q =>
      cases r with
      | nil => simp [isPref] at h1
      | cons c r =>
        simp only [isPref, Bool.and_eq_true, beq_iff_eq] at h1 h2
        obtain ⟨rfl, h1⟩ := h1
        obtain ⟨rfl, h2⟩ := h2
        rcases ih h1 h2 with h | h
        · exact Or.inl (by simp [isPref, h])
        · exact Or.inr (by simp [isPref, h])

theorem hexChar_mem (n : Nat) : hexChar n ∈ hexDigitChars := by
  unfold hexChar
  split <;> decide

theorem hexChars_length (len r : Nat) : (hexChars len r).length = len := by
  simp [hexChars]

theorem random_id_chars (r : Nat) :
    (random_id r).data = hexChars 8 (r / 2 ^ 96) := by
  show (uuid4_chars r).take 8 = hexChars 8 (r / 2 ^ 96)
  unfold uuid4_chars
  rw [List.take_left' (hexChars_length 8 (r / 2 ^ 96))]

/-! ## The claims -/

/-- C1 counterexample: the claim says every non-zero exit code of the
external archive tool makes the 7zip extraction fail, but extract_7zip
(extract.py line 317) discards the subprocess.call return code: with exit
code 2 it still reports success. -/
theorem c1_counterexample : extract_7zip 2 = Except.ok () := rfl

/-- C1 (amended): the generic 7zip backend ignores the external tool's exit
code and reports success unconditionally; only the installer tool's
(innoextract's) non-zero exit is treated as a failure, raising a
RuntimeError in decompress_gog. -/
theorem c1_exit_code_handling :
    (∀ rc : Int, extract_7zip rc = Except.ok ()) ∧
    (∀ env : ToolEnv, ∀ ip : String, env.runtimeInno = some ip →
      env.innoExtractRc ≠ 0 →
      decompress_gog env =
        Except.error (TopErr.runtimeError "innoextract failed to extract GOG setup file")) := by
  constructor
  · intro rc
    rfl
  · intro env ip hip hrc
    unfold decompress_gog get_innoextract_path
    rw [hip]
    simp [hrc]

/-- Witness for C1's amended theorem at exit code 5 and a concrete
environment whose innoextract invocation exits with code 2. -/
theorem c1_exit_code_handling_witness :
    extract_7zip 5 = Except.ok () ∧
    decompress_gog ⟨some "inno", none, 0, 2, 0⟩ =
      Except.error (TopErr.runtimeError "innoextract failed to extract GOG setup file") :=
  ⟨c1_exit_code_handling.1 5,
    c1_exit_code_handling.2 ⟨some "inno", none, 0, 2, 0⟩ "inno" rfl (by decide)⟩

/-- C2 counterexample: the staging directory is allocated inside the
destination directory itself (extract.py line 136 joins it onto
to_directory), not in the destination's parent directory as the claim
states: for destination ["home","user","dest"] the two differ. -/
theorem c2_counterexample :
    staging_dir ["home", "user", "dest"] 0 ≠
      (["home", "user", "dest"] : Path).dropLast ++ [".extract-" ++ random_id 0] := by
  decide

/-- C2 (amended): the staging directory is located inside the destination
directory D itself (not D's parent) and is named ".extract-" followed by
exactly 8 lowercase hexadecimal characters. -/
theorem c2_staging_dir (toDir : Path) (r : Nat) :
    staging_dir toDir r = toDir ++ [".extract-" ++ random_id r] ∧
    (random_id r).length = 8 ∧
    (∀ c, c ∈ (random_id r).data → c ∈ hexDigitChars) := by
  refine ⟨rfl, ?_, ?_⟩
  · show (random_id r).data.length = 8
    rw [random_id_chars]
    exact hexChars_length 8 _
  · intro c hc
    rw [random_id_chars] at hc
    simp only [hexChars, List.mem_map] at hc
    obtain ⟨i, _, rfl⟩ := hc
    exact hexChar_mem _

/-- Witness for C2's amended theorem at a concrete destination and random
draw whose id is "0000000a". -/
theorem c2_staging_dir_witness :
    staging_dir ["a"] (10 * 2 ^ 96) = ["a", ".extract-" ++ random_id (10 * 2 ^ 96)] ∧
    (random_id (10 * 2 ^ 96)).length = 8 ∧ 'a' ∈ hexDigitChars :=
  ⟨(c2_staging_dir ["a"] (10 * 2 ^ 96)).1, (c2_staging_dir ["a"] (10 * 2 ^ 96)).2.1,
    (c2_staging_dir ["a"] (10 * 2 ^ 96)).2.2 'a' (by decide)⟩

set_option maxHeartbeats 1000000 in
/-- C3: guess_extractor returns exactly the documented kind for each suffix
of the supported table, with the spec's one-suffix-per-branch,
most-specific-first reading (guessExtractorKindSpec) agreeing with the code
on every path, and with the tar.* suffixes taking precedence over bare .gz
(a path ending in ".tar.gz" is classified tgz, never gzip); every path
matching no suffix yields none. -/
theorem c3_guess_extractor :
    (∀ p, guess_extractor p = guessExtractorKindSpec p) ∧
    (∀ p, py_endswith p ".tar.gz" = true → guess_extractor p = some "tgz") := by
  constructor
  · intro p
    unfold guess_extractor guessExtractorKindSpec
    cases h1 : py_endswith p ".tar"
    case true => simp [h1]
    case false =>
    cases h2 : py_endswith p ".tar.gz"
    case true => simp [h1, h2]
    case false =>
    cases h3 : py_endswith p ".tgz"
    case true => simp [h1, h2, h3]
    case false =>
    cases h4 : py_endswith p ".tar.xz"
    case true => simp [h1, h2, h3, h4]
    case false =>
    cases h5 : py_endswith p ".txz"
    case true => simp [h1, h2, h3, h4, h5]
    case false =>
    cases h6 : py_endswith p ".tar.lzma"
    case true => simp [h1, h2, h3, h4, h5, h6]
    case false =>
    cases h7 : py_endswith p ".tar.bz2"
    case true => simp [h1, h2, h3, h4, h5, h6, h7]
    case false =>
    cases h8 : py_endswith p ".tbz2"
    case true => simp [h1, h2, h3, h4, h5, h6, h7, h8]
    case false =>
    cases h9 : py_endswith p ".tbz"
    case true => simp [h1, h2, h3, h4, h5, h6, h7, h8, h9]
    case false =>
    cases h10 : py_endswith p ".tar.zst"
    case true => simp [h1, h2, h3, h4, h5, h6, h7, h8, h9, h10]
    case false =>
    cases h11 : py_endswith p ".tzst"
    case true => simp [h1, h2, h3, h4, h5, h6, h7, h8, h9, h10, h11]
    case false =>
    cases h12 : py_endswith p ".gz"
    case true => simp [h1, h2, h3, h4, h5, h6, h7, h8, h9, h10, h11, h12]
    case false =>
    cases h13 : py_endswith p ".exe"
    case true => simp [h1, h2, h3, h4, h5, h6, h7, h8, h9, h10, h11, h12, h13]
    case false =>
    cases h14 : py_endswith p ".deb"
    case true => simp [h1, h2, h3, h4, h5, h6, h7, h8, h9, h10, h11, h12, h13, h14]
    case false =>
    cases h15 : py_endswith p ".AppImage"
    case true => simp [h1, h2, h3, h4, h5, h6, h7, h8, h9, h10, h11, h12, h13, h14, h15]
    case false => simp [h1, h2, h3, h4, h5, h6, h7, h8, h9, h10, h11, h12, h13, h14, h15]
  · intro p h
    have htar : py_endswith p ".tar" = false := by
      cases hc : py_endswith p ".tar" with
      | false => rfl
      | true =>
        exfalso
        rcases isPref_or_isPref (p := (".tar".data.reverse : List Char))
          (q := ".tar.gz".data.reverse) hc h with hcmp | hcmp
        · exact absurd hcmp (by decide)
        · exact absurd hcmp (by decide)
    unfold guess_extractor
    simp [htar, h]

/-- Witness for C3 at a concrete ".tar.gz" path. -/
theorem c3_guess_extractor_witness : guess_extractor "setup.tar.gz" = some "tgz" :=
  c3_guess_extractor.2 "setup.tar.gz" (by decide)

/-- C7: every backend exception of the caught kinds (OSError, zlib.error,
tarfile.ReadError, EOFError) raised by the extraction step is turned into a
single ExtractError carrying the underlying cause's message (extract.py
lines 137-141); the original exception does not escape and nothing is
retried. -/
theorem c7_wraps_backend_errors (mergeFn : FS → Path → Path → Except String FS)
    (fs0 : FS) (toDir : Path) (ms : Bool) (rid rid2 : String) (ex : PyExc)
    (h : isCaught ex = true) :
    extract_archive_model (fun _ _ => Except.error ex) mergeFn fs0 toDir ms rid rid2 =
      Except.error (TopErr.extractError (pyStr ex)) := by
  unfold extract_archive_model
  simp [h]

/-- Witness for C7 at a concrete tarfile.ReadError. -/
theorem c7_wraps_backend_errors_witness :
    extract_archive_model (fun _ _ => Except.error (PyExc.tarReadError "truncated"))
      (fun _ _ _ => Except.ok []) [] ["d"] true "r" "s" =
      Except.error (TopErr.extractError "truncated") :=
  c7_wraps_backend_errors (fun _ _ _ => Except.ok []) [] ["d"] true "r" "s"
    (PyExc.tarReadError "truncated") rfl

/-- C8: when innoextract is nowhere to be found, the installer-signature
probe check_inno_exe returns false instead of raising (the
MissingExecutableError is caught, extract.py lines 271-275), so extract_exe
proceeds down the generic-archive path (7za test, then 7zip extraction or a
RuntimeError); whereas decompress_gog, the actual GOG extraction, does not
catch the locator failure and fails with the missing-executable error. -/
theorem c8_missing_tool (env : ToolEnv) (h1 : env.runtimeInno = none)
    (h2 : env.pathInno = none) :
    check_inno_exe env = false ∧
    extract_exe env = (if env.sevenZaTestRc == 0 then Except.ok ()
      else Except.error
        (TopErr.runtimeError "specified exe is not an archive or GOG setup file")) ∧
    decompress_gog env = Except.error TopErr.missingExecutable := by
  have hget : get_innoextract_path env = Except.error TopErr.missingExecutable := by
    unfold get_innoextract_path find_executable
    rw [h1, h2]
  have hchk : check_inno_exe env = false := by
    unfold check_inno_exe
    rw [hget]
  refine ⟨hchk, ?_, ?_⟩
  · unfold extract_exe
    rw [hchk]
    simp [extract_7zip]
  · unfold decompress_gog
    rw [hget]

/-- Witness for C8 at a concrete environment with no innoextract anywhere. -/
theorem c8_missing_tool_witness :
    check_inno_exe ⟨none, none, 0, 0, 0⟩ = false ∧
    decompress_gog ⟨none, none, 0, 0, 0⟩ = Except.error TopErr.missingExecutable :=
  ⟨(c8_missing_tool ⟨none, none, 0, 0, 0⟩ rfl rfl).1,
    (c8_missing_tool ⟨none, none, 0, 0, 0⟩ rfl rfl).2.2⟩

/-- C9 counterexample: the claim says is_7zip_supported always returns a
boolean, but with no extractor hint and an extension-less path the Python
function falls through and returns None (modelled as none): no boolean is
returned for path "archive". -/
theorem c9_counterexample : ¬ ∃ b : Bool, is_7zip_supported "archive" none = some b := by
  decide

/-- C9 (amended): is_7zip_supported returns some(tag is supported) exactly
when an effective tag exists: the hint when it is truthy (lowercased,
taking precedence over the path), else the path's bare extension when
non-empty (leading dots stripped, lowercased); it returns none, not false,
when neither exists.  This is the pointwise agreement with the spec-side
isSupportedFormatSpec built on effectiveTag. -/
theorem c9_is_7zip_supported (path : String) (extractor : Option String) :
    is_7zip_supported path extractor = isSupportedFormatSpec path extractor := by
  unfold is_7zip_supported isSupportedFormatSpec effectiveTag
  cases hpt : pyTruthy extractor
  · by_cases hext : (splitext path).2 ≠ ""
    · simp [hpt, hext]
    · simp [hpt, hext]
  · simp [hpt]

theorem beq_false_of_ne {α : Type} [BEq α] [LawfulBEq α] {a b : α} (h : a ≠ b) :
    (a == b) = false := by
  cases hc : a == b with
  | false => rfl
  | true => exact absurd (eq_of_beq hc) h

theorem append_singleton_assoc (p : Path) (a : String) (q : Path) :
    (p ++ [a]) ++ q = p ++ a :: q := by
  simp

theorem lookup_renameTree_to_nil (fs : FS) (src dst : Path)
    (hclean : lookup fs dst = none) :
    lookup (renameTree fs src dst) dst = lookup fs src := by
  have := lookup_renameTree_to fs src dst [] (by simpa using hclean)
  simpa using this

theorem mergeSingleFile_dir_case (toDir : Path) (sname ename rid2 : String)
    (fs : FS) (c : Nat)
    (hsn1 : sname ≠ ename) (hsn2 : sname ≠ ename ++ rid2)
    (hsfx : ename ++ rid2 ≠ ename)
    (hfile : lookup fs ((toDir ++ [sname]) ++ [ename]) = some (FNode.file c))
    (hdir : lookup fs (toDir ++ [ename]) = some FNode.dir)
    (hfresh : ∀ q, lookup fs ((toDir ++ [ename ++ rid2]) ++ q) = none) :
    lookup (mergeSingleFile fs toDir (toDir ++ [sname]) ename rid2) (toDir ++ [ename])
        = some (FNode.file c) ∧
    lookup (mergeSingleFile fs toDir (toDir ++ [sname]) ename rid2) (toDir ++ [ename ++ rid2])
        = some FNode.dir ∧
    (∀ q e, q ≠ [] → lookup fs ((toDir ++ [ename]) ++ q) = some e →
      lookup (mergeSingleFile fs toDir (toDir ++ [sname]) ename rid2)
        ((toDir ++ [ename ++ rid2]) ++ q) = some e) := by
  have e1 : isPref (toDir ++ [ename]) ((toDir ++ [sname]) ++ [ename]) = false := by
    rw [append_singleton_assoc, isPref_append_single]
    exact beq_false_of_ne (Ne.symm hsn1)
  have e2 : isPref (toDir ++ [ename ++ rid2]) ((toDir ++ [sname]) ++ [ename]) = false := by
    rw [append_singleton_assoc, isPref_append_single]
    exact beq_false_of_ne (Ne.symm hsn2)
  have e3 : isPref (toDir ++ [ename ++ rid2]) (toDir ++ [ename]) = false := by
    rw [isPref_append_single]
    exact beq_false_of_ne hsfx
  have e4 : isPref (toDir ++ [ename]) (toDir ++ [ename ++ rid2]) = false := by
    rw [isPref_append_single]
    exact beq_false_of_ne (Ne.symm hsfx)
  have e5 : ∀ q : Path, isPref (toDir ++ [ename]) ((toDir ++ [ename ++ rid2]) ++ q) = false := by
    intro q
    rw [append_singleton_assoc, isPref_append_single]
    exact beq_false_of_ne (Ne.symm hsfx)
  have e6 : ∀ q : Path,
      isPref ((toDir ++ [sname]) ++ [ename]) ((toDir ++ [ename ++ rid2]) ++ q) = false := by
    intro q
    rw [append_singleton_assoc, append_singleton_assoc, isPref_append_left]
    simp [isPref, beq_false_of_ne hsn2]
  have e7 : isPref ((toDir ++ [sname]) ++ [ename]) (toDir ++ [ename ++ rid2]) = false := by
    rw [append_singleton_assoc, isPref_append_left]
    simp [isPref]
  have e9 : isPref (toDir ++ [ename]) (toDir ++ [sname]) = false := by
    rw [isPref_append_single]
    exact beq_false_of_ne (Ne.symm hsn1)
  have e10 : isPref (toDir ++ [ename ++ rid2]) (toDir ++ [sname]) = false := by
    rw [isPref_append_single]
    exact beq_false_of_ne (Ne.symm hsn2)
  have e11 : ∀ q : Path, q ≠ [] →
      isPref ((toDir ++ [ename ++ rid2]) ++ q) (toDir ++ [sname]) = false := by
    intro q hq
    apply isPref_false_of_lt
    have hnq : 0 < q.length := List.length_pos.mpr hq
    simp only [List.length_append, List.length_cons, List.length_nil]
    omega
  have hisfile : isfile fs (toDir ++ [ename]) = false := by simp [isfile, hdir]
  have hisdir : isdir fs (toDir ++ [ename]) = true := by simp [isdir, hdir]
  have hunfold : mergeSingleFile fs toDir (toDir ++ [sname]) ename rid2 =
      removedirs
        (renameTree (renameTree fs (toDir ++ [ename]) (toDir ++ [ename ++ rid2]))
          ((toDir ++ [sname]) ++ [ename]) (toDir ++ [ename]))
        (toDir ++ [sname]) := by
    unfold mergeSingleFile
    simp [hisfile, hisdir]
  have h0 : lookup (renameTree fs (toDir ++ [ename]) (toDir ++ [ename ++ rid2]))
      (toDir ++ [ename]) = none :=
    lookup_renameTree_src fs _ _ _ (isPref_refl _) e3
  refine ⟨?_, ?_, ?_⟩
  · rw [hunfold]
    rw [lookup_removedirs_not_pref _ _ _ e9]
    rw [lookup_renameTree_to_nil _ _ _ h0]
    rw [lookup_renameTree_outside _ _ _ _ e1 e2]
    exact hfile
  · rw [hunfold]
    rw [lookup_removedirs_not_pref _ _ _ e10]
    rw [lookup_renameTree_outside _ _ _ _ e7 e4]
    rw [lookup_renameTree_to_nil fs _ _ (by simpa using hfresh [])]
    exact hdir
  · intro q e hq hlk
    rw [hunfold]
    rw [lookup_removedirs_not_pref _ _ _ (e11 q hq)]
    rw [lookup_renameTree_outside _ _ _ _ (e6 q) (e5 q)]
    rw [lookup_renameTree_to fs _ _ q (hfresh q)]
    exact hlk

theorem mergeSingleFile_file_case (toDir : Path) (sname ename rid2 : String)
    (fs : FS) (c b : Nat)
    (hsn1 : sname ≠ ename)
    (hfile : lookup fs ((toDir ++ [sname]) ++ [ename]) = some (FNode.file c))
    (hdest : lookup fs (toDir ++ [ename]) = some (FNode.file b)) :
    lookup (mergeSingleFile fs toDir (toDir ++ [sname]) ename rid2) (toDir ++ [ename])
      = some (FNode.file c) := by
  have hisfile : isfile fs (toDir ++ [ename]) = true := by simp [isfile, hdest]
  have h0 : lookup (removePath fs (toDir ++ [ename])) (toDir ++ [ename]) = none :=
    lookup_removePath_self _ _
  have hisdir : isdir (removePath fs (toDir ++ [ename])) (toDir ++ [ename]) = false := by
    simp [isdir, h0]
  have hunfold : mergeSingleFile fs toDir (toDir ++ [sname]) ename rid2 =
      removedirs
        (renameTree (removePath fs (toDir ++ [ename]))
          ((toDir ++ [sname]) ++ [ename]) (toDir ++ [ename]))
        (toDir ++ [sname]) := by
    unfold mergeSingleFile
    simp [hisfile, hisdir]
  have e9 : isPref (toDir ++ [ename]) (toDir ++ [sname]) = false := by
    rw [isPref_append_single]
    exact beq_false_of_ne (Ne.symm hsn1)
  have hne : ((toDir ++ [sname]) ++ [ename] : Path) ≠ toDir ++ [ename] := by
    intro he
    have hlen := congrArg List.length he
    simp at hlen
  rw [hunfold]
  rw [lookup_removedirs_not_pref _ _ _ e9]
  rw [lookup_renameTree_to_nil _ _ _ h0]
  rw [lookup_removePath_ne fs hne]
  exact hfile

/-- C4: when the effective staged root is a single regular file
tempDir/ename and a directory already occupies the destination path
to_directory/ename, extract_archive renames that directory by appending a
random suffix (extract.py line 153) — it is not deleted, and each of its
entries survives under the renamed path — and the staged file then sits at
the destination; when a plain file occupies that path it is removed and
overwritten by the staged file (lines 149-151, 155). -/
theorem c4_single_file_collisions (toDir : Path) (sname ename rid2 : String)
    (fs fsB : FS) (c c2 b : Nat)
    (hsn1 : sname ≠ ename) (hsn2 : sname ≠ ename ++ rid2)
    (hsfx : ename ++ rid2 ≠ ename)
    (hfileA : lookup fs ((toDir ++ [sname]) ++ [ename]) = some (FNode.file c))
    (hdirA : lookup fs (toDir ++ [ename]) = some FNode.dir)
    (hfresh : ∀ q, lookup fs ((toDir ++ [ename ++ rid2]) ++ q) = none)
    (hfileB : lookup fsB ((toDir ++ [sname]) ++ [ename]) = some (FNode.file c2))
    (hdestB : lookup fsB (toDir ++ [ename]) = some (FNode.file b)) :
    (lookup (mergeSingleFile fs toDir (toDir ++ [sname]) ename rid2) (toDir ++ [ename])
        = some (FNode.file c) ∧
      lookup (mergeSingleFile fs toDir (toDir ++ [sname]) ename rid2)
          (toDir ++ [ename ++ rid2]) = some FNode.dir ∧
      (∀ q e, q ≠ [] → lookup fs ((toDir ++ [ename]) ++ q) = some e →
        lookup (mergeSingleFile fs toDir (toDir ++ [sname]) ename rid2)
          ((toDir ++ [ename ++ rid2]) ++ q) = some e)) ∧
    lookup (mergeSingleFile fsB toDir (toDir ++ [sname]) ename rid2) (toDir ++ [ename])
      = some (FNode.file c2) :=
  ⟨mergeSingleFile_dir_case toDir sname ename rid2 fs c hsn1 hsn2 hsfx hfileA hdirA hfresh,
    mergeSingleFile_file_case toDir sname ename rid2 fsB c2 b hsn1 hfileB hdestB⟩

/-- Witness for C4: a staged single file "tools" colliding with an existing
directory ["d","tools"] (whose entry "inner" survives under the renamed
directory "tools12345678"), and, in a second filesystem, with an existing
plain file that gets overwritten. -/
theorem c4_single_file_collisions_witness :
    lookup (mergeSingleFile
        [(["d", ".extract-ab", "tools"], FNode.file 1), (["d", "tools"], FNode.dir),
          (["d", "tools", "inner"], FNode.file 9), (["d"], FNode.dir)]
        ["d"] ["d", ".extract-ab"] "tools" "12345678") ["d", "tools"]
      = some (FNode.file 1) ∧
    lookup (mergeSingleFile
        [(["d", ".extract-ab", "tools"], FNode.file 1), (["d", "tools"], FNode.dir),
          (["d", "tools", "inner"], FNode.file 9), (["d"], FNode.dir)]
        ["d"] ["d", ".extract-ab"] "tools" "12345678") ["d", "tools12345678"]
      = some FNode.dir ∧
    lookup (mergeSingleFile
        [(["d", ".extract-ab", "tools"], FNode.file 1), (["d", "tools"], FNode.dir),
          (["d", "tools", "inner"], FNode.file 9), (["d"], FNode.dir)]
        ["d"] ["d", ".extract-ab"] "tools" "12345678") ["d", "tools12345678", "inner"]
      = some (FNode.file 9) ∧
    lookup (mergeSingleFile
        [(["d", ".extract-ab", "tools"], FNode.file 7), (["d", "tools"], FNode.file 3),
          (["d"], FNode.dir)]
        ["d"] ["d", ".extract-ab"] "tools" "12345678") ["d", "tools"]
      = some (FNode.file 7) := by
  have h := c4_single_file_collisions ["d"] ".extract-ab" "tools" "12345678"
    [(["d", ".extract-ab", "tools"], FNode.file 1), (["d", "tools"], FNode.dir),
      (["d", "tools", "inner"], FNode.file 9), (["d"], FNode.dir)]
    [(["d", ".extract-ab", "tools"], FNode.file 7), (["d", "tools"], FNode.file 3),
      (["d"], FNode.dir)]
    1 7 3 (by decide) (by decide) (by decide) rfl rfl (fun _ => rfl) rfl rfl
  exact ⟨h.1.1, h.1.2.1, h.1.2.2 ["inner"] (FNode.file 9) (by decide) rfl, h.2⟩

/-- C5 counterexample: the claim says that when a staged directory's
destination is occupied by a plain file, a recursive merge is attempted and
errors; but the merge loop branches on the destination's type (extract.py
line 165), so the destination file ["d","x"] is simply removed and the
staged directory ["t","x"] (with its child "y") is moved into place — the
result is ok, and the merge function (here one that would always error) is
never consulted. -/
theorem c5_counterexample :
    processEntry (fun _ _ _ => Except.error "boom")
      [(["d", "x"], FNode.file 1), (["t", "x"], FNode.dir), (["t", "x", "y"], FNode.file 2)]
      ["t"] ["d"] "x"
      = Except.ok [(["d", "x"], FNode.dir), (["d", "x", "y"], FNode.file 2)] := by
  rfl

/-- C5 (amended): during the merge loop, for every staged entry whose
destination path is occupied by a plain file, the destination file is
deleted and the staged entry — file or directory alike — is moved into
place; no recursive merge (and hence none of its error cases) is attempted,
the result being independent of the merge function.  The recursive merge
only runs when the destination is a directory. -/
theorem c5_dest_file_branch (fs : FS) (tempPath toDir : Path) (name : String) (b : Nat)
    (hdest : lookup fs (toDir ++ [name]) = some (FNode.file b))
    (hnp : ∀ q, isPref (tempPath ++ [name]) ((toDir ++ [name]) ++ q) = false)
    (hclean : ∀ q, q ≠ [] → lookup fs ((toDir ++ [name]) ++ q) = none) :
    (∀ mergeFn, processEntry mergeFn fs tempPath toDir name
      = Except.ok (renameTree (removePath fs (toDir ++ [name]))
          (tempPath ++ [name]) (toDir ++ [name]))) ∧
    lookup (renameTree (removePath fs (toDir ++ [name]))
        (tempPath ++ [name]) (toDir ++ [name])) (toDir ++ [name])
      = lookup fs (tempPath ++ [name]) ∧
    (∀ q, q ≠ [] →
      lookup (renameTree (removePath fs (toDir ++ [name]))
          (tempPath ++ [name]) (toDir ++ [name])) ((toDir ++ [name]) ++ q)
        = lookup fs ((tempPath ++ [name]) ++ q)) := by
  have hne : (tempPath ++ [name] : Path) ≠ toDir ++ [name] := by
    intro he
    have h0 := hnp []
    rw [List.append_nil, ← he, isPref_refl] at h0
    exact Bool.true_eq_false.mp h0
  refine ⟨?_, ?_, ?_⟩
  · intro mergeFn
    have hex : path_exists fs (toDir ++ [name]) = true := by simp [path_exists, hdest]
    have hif : isfile fs (toDir ++ [name]) = true := by simp [isfile, hdest]
    unfold processEntry
    simp [hex, hif]
  · rw [lookup_renameTree_to_nil _ _ _ (lookup_removePath_self fs _)]
    exact lookup_removePath_ne fs hne
  · intro q hq
    have hq0 : ((toDir ++ [name]) ++ q : Path) ≠ toDir ++ [name] := by
      intro he
      have hlen := congrArg List.length he
      simp [List.length_append] at hlen
      exact hq hlen
    have hcq : lookup (removePath fs (toDir ++ [name])) ((toDir ++ [name]) ++ q) = none := by
      rw [lookup_removePath_ne fs hq0]
      exact hclean q hq
    rw [lookup_renameTree_to _ _ _ q hcq]
    apply lookup_removePath_ne
    intro he
    have h0 := hnp []
    rw [List.append_nil, ← he, isPref_self_append] at h0
    exact Bool.true_eq_false.mp h0

/-- Witness for C5's amended theorem: a staged file ["t","x"] over a
destination file ["d","x"]; the destination is removed and the staged file
moved, with the (never-consulted) merge function chosen as one that would
always error. -/
theorem c5_dest_file_branch_witness :
    processEntry (fun _ _ _ => Except.error "unused")
      [(["d", "x"], FNode.file 5), (["t", "x"], FNode.file 9)] ["t"] ["d"] "x"
      = Except.ok (renameTree
          (removePath [(["d", "x"], FNode.file 5), (["t", "x"], FNode.file 9)]
            (["d"] ++ ["x"])) (["t"] ++ ["x"]) (["d"] ++ ["x"])) ∧
    lookup (renameTree
        (removePath [(["d", "x"], FNode.file 5), (["t", "x"], FNode.file 9)]
          (["d"] ++ ["x"])) (["t"] ++ ["x"]) (["d"] ++ ["x"])) (["d"] ++ ["x"])
      = lookup [(["d", "x"], FNode.file 5), (["t", "x"], FNode.file 9)] (["t"] ++ ["x"]) := by
  have h := c5_dest_file_branch
    [(["d", "x"], FNode.file 5), (["t", "x"], FNode.file 9)] ["t"] ["d"] "x" 5
    rfl (fun _ => rfl)
    (by
      intro q hq
      cases q with
      | nil => exact absurd rfl hq
      | cons a t => rfl)
  exact ⟨h.1 _, h.2.1⟩

theorem append_single_ne (p : Path) {a b : String} (hne : a ≠ b) :
    p ++ [a] ≠ p ++ [b] := by
  intro he
  have h2 := app_cancel he
  simp at h2
  exact hne h2

theorem getLastD_append (p : Path) (a : String) : (p ++ [a]).getLastD "" = a := by
  induction p with
  | nil => rfl
  | cons b t ih => simpa [List.getLastD] using ih

theorem length_append_single_ne (p : Path) (a b c : String) :
    (p ++ [a] : Path) ≠ (p ++ [b]) ++ [c] := by
  intro he
  have hlen := congrArg List.length he
  simp at hlen

/-- C6: for a .deb whose AR container holds control.tar.gz and data.tar.xz
(and no earlier-probed data.tar.gz, and no pre-existing debian entry),
extract_deb succeeds with: the control tarball moved — still carrying its
compressed content — to debian/control.tar.gz and gone from its original
place, the data tarball handed to the recursive extractor against the same
destination and its artifact deleted afterwards, and everything else the
recursive extraction produced retained.  The extension probe orders are
fixed by controlFileExts = [.gz, .xz, .zst, ""] and dataFileExts =
[.gz, .xz, .zst, .bz2, .lzma, ""], stopping at the first match (here .gz
for control, then .xz for data since data.tar.gz is absent). -/
theorem c6_extract_deb (arE : FS → Path → FS) (innerE : FS → Path → Path → FS)
    (fs0 : FS) (dest : Path) (c d : Nat)
    (hctrl : lookup (arE fs0 dest) (dest ++ ["control.tar.gz"]) = some (FNode.file c))
    (hdata : lookup (arE fs0 dest) (dest ++ ["data.tar.xz"]) = some (FNode.file d))
    (hnoDataGz : lookup (arE fs0 dest) (dest ++ ["data.tar.gz"]) = none)
    (hnoDebian : ∀ q, lookup (arE fs0 dest) ((dest ++ ["debian"]) ++ q) = none)
    (hinner1 : ∀ fs, lookup (innerE fs (dest ++ ["data.tar.xz"]) dest)
        ((dest ++ ["debian"]) ++ ["control.tar.gz"])
      = lookup fs ((dest ++ ["debian"]) ++ ["control.tar.gz"]))
    (hinner2 : ∀ fs, lookup (innerE fs (dest ++ ["data.tar.xz"]) dest)
        (dest ++ ["control.tar.gz"]) = lookup fs (dest ++ ["control.tar.gz"])) :
    extract_deb_model arE innerE fs0 dest
      = Except.ok (extract_deb_result arE innerE fs0 dest) ∧
    lookup (extract_deb_result arE innerE fs0 dest)
        ((dest ++ ["debian"]) ++ ["control.tar.gz"]) = some (FNode.file c) ∧
    lookup (extract_deb_result arE innerE fs0 dest) (dest ++ ["control.tar.gz"]) = none ∧
    lookup (extract_deb_result arE innerE fs0 dest) (dest ++ ["data.tar.xz"]) = none ∧
    (∀ q e,
      lookup (innerE
          (renameTree (writeNode (arE fs0 dest) (dest ++ ["debian"]) FNode.dir)
            (dest ++ ["control.tar.gz"]) ((dest ++ ["debian"]) ++ ["control.tar.gz"]))
          (dest ++ ["data.tar.xz"]) dest) q = some e →
      q ≠ dest ++ ["data.tar.xz"] →
      lookup (extract_deb_result arE innerE fs0 dest) q = some e) := by
  have hA : path_exists (arE fs0 dest) (dest ++ ["debian"]) = false := by
    have h0 := hnoDebian []
    simp only [List.append_nil] at h0
    simp [path_exists, h0]
  -- lookups through fs2 := writeNode fs1 debian dir
  have hw_ctrl : lookup (writeNode (arE fs0 dest) (dest ++ ["debian"]) FNode.dir)
      (dest ++ ["control.tar.gz"]) = some (FNode.file c) := by
    rw [lookup_writeNode_ne _ _ (append_single_ne dest (by decide))]
    exact hctrl
  have hw_data : lookup (writeNode (arE fs0 dest) (dest ++ ["debian"]) FNode.dir)
      (dest ++ ["data.tar.xz"]) = some (FNode.file d) := by
    rw [lookup_writeNode_ne _ _ (append_single_ne dest (by decide))]
    exact hdata
  have hw_datagz : lookup (writeNode (arE fs0 dest) (dest ++ ["debian"]) FNode.dir)
      (dest ++ ["data.tar.gz"]) = none := by
    rw [lookup_writeNode_ne _ _ (append_single_ne dest (by decide))]
    exact hnoDataGz
  -- the control probe hits its first candidate
  have hexc : path_exists (writeNode (arE fs0 dest) (dest ++ ["debian"]) FNode.dir)
      (dest ++ ["control.tar.gz"]) = true := by
    simp [path_exists, hw_ctrl]
  have hB : find_tar_variant (writeNode (arE fs0 dest) (dest ++ ["debian"]) FNode.dir)
      dest "control" controlFileExts = some (dest ++ ["control.tar.gz"]) := by
    show (if path_exists (writeNode (arE fs0 dest) (dest ++ ["debian"]) FNode.dir)
        (dest ++ ["control.tar.gz"]) = true
      then some (dest ++ ["control.tar.gz"])
      else find_tar_variant (writeNode (arE fs0 dest) (dest ++ ["debian"]) FNode.dir)
        dest "control" [".xz", ".zst", ""]) = some (dest ++ ["control.tar.gz"])
    rw [hexc]
    simp
  -- lookups through fs3 := renameTree fs2 ctrl debianCtrl
  have hctrl_ne_datagz : isPref (dest ++ ["control.tar.gz"]) (dest ++ ["data.tar.gz"]) = false := by
    rw [isPref_append_single]
    decide
  have hdc_ne_datagz : isPref ((dest ++ ["debian"]) ++ ["control.tar.gz"])
      (dest ++ ["data.tar.gz"]) = false := by
    rw [append_singleton_assoc, isPref_append_left]
    simp [isPref]
  have hctrl_ne_dataxz : isPref (dest ++ ["control.tar.gz"]) (dest ++ ["data.tar.xz"]) = false := by
    rw [isPref_append_single]
    decide
  have hdc_ne_dataxz : isPref ((dest ++ ["debian"]) ++ ["control.tar.gz"])
      (dest ++ ["data.tar.xz"]) = false := by
    rw [append_singleton_assoc, isPref_append_left]
    simp [isPref]
  have hr_datagz : lookup
      (renameTree (writeNode (arE fs0 dest) (dest ++ ["debian"]) FNode.dir)
        (dest ++ ["control.tar.gz"]) ((dest ++ ["debian"]) ++ ["control.tar.gz"]))
      (dest ++ ["data.tar.gz"]) = none := by
    rw [lookup_renameTree_outside _ _ _ _ hctrl_ne_datagz hdc_ne_datagz]
    exact hw_datagz
  have hr_dataxz : lookup
      (renameTree (writeNode (arE fs0 dest) (dest ++ ["debian"]) FNode.dir)
        (dest ++ ["control.tar.gz"]) ((dest ++ ["debian"]) ++ ["control.tar.gz"]))
      (dest ++ ["data.tar.xz"]) = some (FNode.file d) := by
    rw [lookup_renameTree_outside _ _ _ _ hctrl_ne_dataxz hdc_ne_dataxz]
    exact hw_data
  have hD : find_tar_variant
      (renameTree (writeNode (arE fs0 dest) (dest ++ ["debian"]) FNode.dir)
        (dest ++ ["control.tar.gz"]) ((dest ++ ["debian"]) ++ ["control.tar.gz"]))
      dest "data" dataFileExts = some (dest ++ ["data.tar.xz"]) := by
    show (if path_exists
        (renameTree (writeNode (arE fs0 dest) (dest ++ ["debian"]) FNode.dir)
          (dest ++ ["control.tar.gz"]) ((dest ++ ["debian"]) ++ ["control.tar.gz"]))
        (dest ++ ["data.tar.gz"]) = true
      then some (dest ++ ["data.tar.gz"])
      else if path_exists
          (renameTree (writeNode (arE fs0 dest) (dest ++ ["debian"]) FNode.dir)
            (dest ++ ["control.tar.gz"]) ((dest ++ ["debian"]) ++ ["control.tar.gz"]))
          (dest ++ ["data.tar.xz"]) = true
        then some (dest ++ ["data.tar.xz"])
        else find_tar_variant
          (renameTree (writeNode (arE fs0 dest) (dest ++ ["debian"]) FNode.dir)
            (dest ++ ["control.tar.gz"]) ((dest ++ ["debian"]) ++ ["control.tar.gz"]))
          dest "data" [".zst", ".bz2", ".lzma", ""]) = some (dest ++ ["data.tar.xz"])
    rw [show path_exists
        (renameTree (writeNode (arE fs0 dest) (dest ++ ["debian"]) FNode.dir)
          (dest ++ ["control.tar.gz"]) ((dest ++ ["debian"]) ++ ["control.tar.gz"]))
        (dest ++ ["data.tar.gz"]) = false from by unfold path_exists; rw [hr_datagz]; rfl]
    rw [show path_exists
        (renameTree (writeNode (arE fs0 dest) (dest ++ ["debian"]) FNode.dir)
          (dest ++ ["control.tar.gz"]) ((dest ++ ["debian"]) ++ ["control.tar.gz"]))
        (dest ++ ["data.tar.xz"]) = true from by unfold path_exists; rw [hr_dataxz]; rfl]
    simp
  have hmain : extract_deb_model arE innerE fs0 dest
      = Except.ok (extract_deb_result arE innerE fs0 dest) := by
    simp only [extract_deb_model, extract_deb_result]
    rw [hA]
    simp only [Bool.false_eq_true, if_false, hB, hD, getLastD_append]
  refine ⟨hmain, ?_, ?_, ?_, ?_⟩
  · unfold extract_deb_result
    rw [lookup_removePath_ne _ (by
      intro he
      have hlen := congrArg List.length he
      simp at hlen)]
    rw [hinner1]
    rw [lookup_renameTree_to_nil _ _ _ (by
      rw [lookup_writeNode_ne _ _ (by
        intro he
        have hlen := congrArg List.length he
        simp at hlen)]
      exact hnoDebian ["control.tar.gz"])]
    exact hw_ctrl
  · unfold extract_deb_result
    rw [lookup_removePath_ne _ (append_single_ne dest (by decide))]
    rw [hinner2]
    exact lookup_renameTree_src _ _ _ _ (isPref_refl _) (by
      apply isPref_false_of_lt
      simp)
  · exact lookup_removePath_self _ _
  · intro q e hlk hne
    unfold extract_deb_result
    rw [lookup_removePath_ne _ hne]
    exact hlk

/-- Witness for C6: a concrete AR extraction producing control.tar.gz
(content 11) and data.tar.xz (content 22) in ["out"], with a recursive
extractor writing a payload file; the control tarball ends under debian/
and the data artifact is gone. -/
theorem c6_extract_deb_witness :
    lookup (extract_deb_result
        (fun fs dd => writeNode (writeNode fs (dd ++ ["control.tar.gz"]) (FNode.file 11))
          (dd ++ ["data.tar.xz"]) (FNode.file 22))
        (fun fs _ dd => writeNode fs (dd ++ ["payload"]) (FNode.file 33))
        [(["out"], FNode.dir)] ["out"])
      ((["out"] ++ ["debian"]) ++ ["control.tar.gz"]) = some (FNode.file 11) ∧
    lookup (extract_deb_result
        (fun fs dd => writeNode (writeNode fs (dd ++ ["control.tar.gz"]) (FNode.file 11))
          (dd ++ ["data.tar.xz"]) (FNode.file 22))
        (fun fs _ dd => writeNode fs (dd ++ ["payload"]) (FNode.file 33))
        [(["out"], FNode.dir)] ["out"])
      (["out"] ++ ["data.tar.xz"]) = none := by
  have h := c6_extract_deb
    (fun fs dd => writeNode (writeNode fs (dd ++ ["control.tar.gz"]) (FNode.file 11))
      (dd ++ ["data.tar.xz"]) (FNode.file 22))
    (fun fs _ dd => writeNode fs (dd ++ ["payload"]) (FNode.file 33))
    [(["out"], FNode.dir)] ["out"] 11 22
    rfl rfl rfl (fun _ => rfl)
    (fun fs => lookup_writeNode_ne fs (FNode.file 33) (by decide))
    (fun fs => lookup_writeNode_ne fs (FNode.file 33) (by decide))
  exact ⟨h.2.1, h.2.2.2.1⟩

theorem ne_of_isPref_false {p q : List String} (h : isPref p q = false) : q ≠ p := by
  intro he
  rw [he, isPref_refl] at h
  exact Bool.true_eq_false.mp h

theorem mergeSingleFile_frame (fs : FS) (toDir tempDir : Path) (ename rid2 : String)
    (q : Path)
    (h1 : isPref (toDir ++ [ename]) q = false)
    (h2 : isPref (toDir ++ [ename ++ rid2]) q = false)
    (h3 : isPref (tempDir ++ [ename]) q = false)
    (hnd : lookup fs q ≠ some FNode.dir) :
    lookup (mergeSingleFile fs toDir tempDir ename rid2) q = lookup fs q := by
  have hq1 : q ≠ toDir ++ [ename] := ne_of_isPref_false h1
  simp only [mergeSingleFile]
  generalize hG1 : (if isfile fs (toDir ++ [ename]) = true
    then removePath fs (toDir ++ [ename]) else fs) = gs1
  have l1 : lookup gs1 q = lookup fs q := by
    rw [← hG1]
    split
    · exact lookup_removePath_ne fs hq1
    · rfl
  generalize hG2 : (if isdir gs1 (toDir ++ [ename]) = true
    then renameTree gs1 (toDir ++ [ename]) (toDir ++ [ename ++ rid2]) else gs1) = gs2
  have l2 : lookup gs2 q = lookup fs q := by
    rw [← hG2]
    split
    · rw [lookup_renameTree_outside _ _ _ _ h1 h2]
      exact l1
    · exact l1
  have l3 : lookup (renameTree gs2 (tempDir ++ [ename]) (toDir ++ [ename])) q
      = lookup fs q := by
    rw [lookup_renameTree_outside _ _ _ _ h3 h1]
    exact l2
  rw [lookup_removedirs_nondir _ _ _ (by rw [l3]; exact hnd)]
  exact l3

theorem processEntry_frame (mergeFn : FS → Path → Path → Except String FS)
    (hm : ∀ fs a b fs', mergeFn fs a b = Except.ok fs' →
      ∀ q, isPref a q = false → isPref b q = false → lookup fs' q = lookup fs q)
    (fs fs' : FS) (tempPath toDir : Path) (name : String) (q : Path)
    (h1 : isPref (toDir ++ [name]) q = false)
    (h3 : isPref (tempPath ++ [name]) q = false)
    (hok : processEntry mergeFn fs tempPath toDir name = Except.ok fs') :
    lookup fs' q = lookup fs q := by
  have hq1 : q ≠ toDir ++ [name] := ne_of_isPref_false h1
  simp only [processEntry] at hok
  split at hok
  · split at hok
    · injection hok with hfs
      subst hfs
      rw [lookup_renameTree_outside _ _ _ _ h3 h1]
      exact lookup_removePath_ne fs hq1
    · split at hok
      · split at hok
        next fs2 heq =>
          injection hok with hfs
          subst hfs
          exact hm fs _ _ _ heq q h3 h1
        next e heq => exact absurd hok (by simp)
      · injection hok with hfs
        subst hfs
        rfl
  · injection hok with hfs
    subst hfs
    rw [lookup_renameTree_outside _ _ _ _ h3 h1]

theorem processEntries_frame (mergeFn : FS → Path → Path → Except String FS)
    (hm : ∀ fs a b fs', mergeFn fs a b = Except.ok fs' →
      ∀ q, isPref a q = false → isPref b q = false → lookup fs' q = lookup fs q)
    (tempPath toDir : Path) (q : Path)
    (h1u : ∀ name, isPref (toDir ++ [name]) q = false)
    (h3u : ∀ name, isPref (tempPath ++ [name]) q = false) :
    ∀ (names : List String) (fs fs' : FS),
      processEntries mergeFn fs tempPath toDir names = Except.ok fs' →
      lookup fs' q = lookup fs q := by
  intro names
  induction names with
  | nil =>
    intro fs fs' h
    injection h with hh
    subst hh
    rfl
  | cons n rest ih =>
    intro fs fs' h
    simp only [processEntries] at h
    split at h
    next fs1 hpe =>
      rw [ih fs1 fs' h]
      exact processEntry_frame mergeFn hm fs fs1 tempPath toDir n q (h1u n) (h3u n) hpe
    next e hpe => exact absurd h (by simp)

theorem isPref_flattenedPath (fs1 : FS) (tempDir : Path) (ms : Bool) :
    isPref tempDir (flattenedPath fs1 tempDir ms) = true := by
  unfold flattenedPath
  split
  · exact isPref_self_append _ _
  · exact isPref_refl _

/-- C10 counterexample: extract_archive can delete and overwrite the
caller-supplied source archive.  Extracting the tar archive ["d","a.tar"]
(content 3) into its own directory ["d"], where the archive contains a
single entry also named "a.tar" (staged content 7), ends with the source
replaced by the staged file: the merge step removed the original source. -/
theorem c10_counterexample :
    extract_archive_model
      (fun fs dd => Except.ok (writeNode (writeNode fs dd FNode.dir)
        (dd ++ ["a.tar"]) (FNode.file 7)))
      (fun _ _ _ => Except.error "unused")
      [(["d"], FNode.dir), (["d", "a.tar"], FNode.file 3)] ["d"] true "r1" "r2"
      = Except.ok ([(["d", "a.tar"], FNode.file 7), (["d"], FNode.dir)], ["d"]) := by
  rfl

/-- C10 (amended): the backends are modelled as writing only inside the
staging directory (hypothesis hdoE) and the recursive merge as writing only
inside its two arguments (hypothesis hm); under those locality assumptions,
every successful extract_archive run leaves the caller-supplied source file
untouched provided the source does not lie strictly inside the destination
directory — the staging directory and every merge target live there, and a
source located there under a colliding name is overwritten (see the
counterexample). -/
theorem c10_source_preserved (doE : FS → Path → Except PyExc FS)
    (mergeFn : FS → Path → Path → Except String FS)
    (fs0 : FS) (toDir src : Path) (ms : Bool) (rid rid2 : String)
    (fsOut : FS) (rp : Path) (c0 : Nat)
    (hdoE : ∀ fs dd fs', doE fs dd = Except.ok fs' →
      ∀ q, isPref dd q = false → lookup fs' q = lookup fs q)
    (hm : ∀ fs a b fs', mergeFn fs a b = Except.ok fs' →
      ∀ q, isPref a q = false → isPref b q = false → lookup fs' q = lookup fs q)
    (hsrc : ∀ (name : String) (rest : Path), src ≠ toDir ++ name :: rest)
    (hfile : lookup fs0 src = some (FNode.file c0))
    (hrun : extract_archive_model doE mergeFn fs0 toDir ms rid rid2
      = Except.ok (fsOut, rp)) :
    lookup fsOut src = some (FNode.file c0) := by
  have hout : ∀ name : String, isPref (toDir ++ [name]) src = false := by
    intro name
    cases hc : isPref (toDir ++ [name]) src with
    | false => rfl
    | true =>
      obtain ⟨t, ht⟩ := (isPref_iff _ _).mp hc
      rw [append_singleton_assoc] at ht
      exact absurd ht (hsrc name t)
  have hout2 : ∀ (pfx : Path), isPref (toDir ++ [".extract-" ++ rid]) pfx = true →
      isPref pfx src = false := by
    intro pfx hp
    cases hc : isPref pfx src with
    | false => rfl
    | true =>
      have := isPref_trans hp hc
      rw [hout _] at this
      exact absurd this (by simp)
  simp only [extract_archive_model] at hrun
  split at hrun
  next ex heq =>
    split at hrun <;> exact absurd hrun (by simp)
  next fs1 heq =>
    have hfs1 : lookup fs1 src = some (FNode.file c0) := by
      rw [hdoE fs0 _ fs1 heq src (hout _)]
      exact hfile
    split at hrun
    · injection hrun with hpair
      have hfs : mergeSingleFile fs1 toDir (toDir ++ [".extract-" ++ rid])
          ((childNames fs1 (toDir ++ [".extract-" ++ rid])).headD "") rid2 = fsOut :=
        congrArg Prod.fst hpair
      rw [← hfs]
      rw [mergeSingleFile_frame fs1 toDir _ _ rid2 src (hout _) (hout _)
        (hout2 _ (isPref_self_append _ _)) (by rw [hfs1]; simp)]
      exact hfs1
    · split at hrun
      next fs2 hpe =>
        injection hrun with hpair
        have hfs : delete_folder fs2 (toDir ++ [".extract-" ++ rid]) = fsOut :=
          congrArg Prod.fst hpair
        rw [← hfs]
        rw [lookup_delete_folder fs2 (hout _)]
        rw [processEntries_frame mergeFn hm _ toDir src hout
          (fun name => hout2 _ (isPref_trans (isPref_flattenedPath fs1 _ ms)
            (isPref_self_append _ _)))
          _ fs1 fs2 hpe]
        exact hfs1
      next e hpe => exact absurd hrun (by simp)

/-- Witness for C10's amended theorem: a concrete run extracting into ["d"]
with the source archive at ["s","a.tar"]; the source survives with its
content 3. -/
theorem c10_source_preserved_witness :
    lookup [(["d", "x"], FNode.file 7), (["s", "a.tar"], FNode.file 3), (["d"], FNode.dir)]
      ["s", "a.tar"] = some (FNode.file 3) := by
  apply c10_source_preserved
    (fun fs dd => Except.ok (writeNode (writeNode fs dd FNode.dir)
      (dd ++ ["x"]) (FNode.file 7)))
    (fun fs _ _ => Except.ok fs)
    [(["s", "a.tar"], FNode.file 3), (["d"], FNode.dir)] ["d"] ["s", "a.tar"]
    true "r1" "r2"
    [(["d", "x"], FNode.file 7), (["s", "a.tar"], FNode.file 3), (["d"], FNode.dir)]
    ["d"] 3
  · intro fs dd fs' h q hq
    injection h with hh
    subst hh
    have hq1 : q ≠ dd := ne_of_isPref_false hq
    have hq2 : q ≠ dd ++ ["x"] := by
      intro he
      rw [he, isPref_self_append] at hq
      exact Bool.true_eq_false.mp hq
    rw [lookup_writeNode_ne _ _ hq2, lookup_writeNode_ne _ _ hq1]
  · intro fs a b fs' h q _ _
    injection h with hh
    subst hh
    rfl
  · intro name rest he
    simp at he
  · rfl
  · rfl

end LutrisExtract
